import Mathlib

/-!
Shallow embedding of the hyperdrive consensus state machine
(`state/machine.go`) and proofs of the specification claims.

The `block` package's `PolkaBuilder` and `CommitBuilder` are consumed by the
machine through an interface; they are modelled abstractly as a record of
operations over an arbitrary builder-state type, so every theorem quantifies
over all builder behaviours (hypotheses pin down exactly what the code
observes from them).  Go `int64` heights and rounds are modelled as `Int`;
nil-able pointers as `Option`.
-/

namespace Hyperdrive

/-- Consensus block height (`block.Height`, a Go int64). -/
abbrev Height := Int

/-- Consensus round within a height (`block.Round`, a Go int64). -/
abbrev Round := Int

/-- `block.SignedBlock`: an opaque block payload carrying its height. -/
structure SignedBlock where
  Height : Height
  Payload : Nat
deriving DecidableEq, Repr

/-- `block.PreVote`: a vote for an optional block at a height and round. -/
structure PreVote where
  Block : Option SignedBlock
  Height : Height
  Round : Round
deriving DecidableEq, Repr

/-- `block.SignedPreVote`: a prevote plus its signatory. -/
structure SignedPreVote where
  PreVote : PreVote
  Signatory : Nat
deriving DecidableEq, Repr

/-- `block.Polka`: at least a threshold of prevotes agreeing on an optional
block at a height and round (the evidence set is never inspected by the
machine and is omitted). -/
structure Polka where
  Block : Option SignedBlock
  Height : Height
  Round : Round
deriving DecidableEq, Repr

/-- `block.Commit`: a commit wrapping a polka (evidence omitted, as the
machine never inspects it). -/
structure Commit where
  Polka : Polka
deriving DecidableEq, Repr

/-- `block.PreCommit`: a precommit over a polka. -/
structure PreCommit where
  Polka : Polka
deriving DecidableEq, Repr

/-- `block.SignedPreCommit`: a precommit plus its signatory. -/
structure SignedPreCommit where
  PreCommit : PreCommit
  Signatory : Nat
deriving DecidableEq, Repr

/-- `state.State`: the three declared machine states. -/
inductive State where
  | WaitingForPropose
  | WaitingForPolka
  | WaitingForCommit
deriving DecidableEq, Repr

/-- `state.Transition`: the four declared transition variants. -/
inductive Transition where
  | Proposed (sb : SignedBlock)
  | PreVoted (v : SignedPreVote)
  | PreCommitted (v : SignedPreCommit)
  | TimedOut
deriving DecidableEq, Repr

/-- `state.Action`: the actions the machine can emit. -/
inductive Action where
  | PreVoteA (v : PreVote)
  | PreCommitA (v : PreCommit)
  | CommitA (c : Commit)
deriving DecidableEq, Repr

/-- The `block.PolkaBuilder` interface, modelled as operations over an
abstract builder-state type `σ`.  `Insert` returns the updated state and
whether the vote was new; `Polka h t` returns the highest polka at height
`h` reaching threshold `t` and the highest round with at least `t`
prevotes. -/
structure PolkaBuilderOps (σ : Type) where
  Insert : σ → SignedPreVote → σ × Bool
  Polka : σ → Height → Int → Option Polka × Option Round

/-- The `block.CommitBuilder` interface, modelled as operations over an
abstract builder-state type `σ`. -/
structure CommitBuilderOps (σ : Type) where
  Insert : σ → SignedPreCommit → σ × Bool
  Commit : σ → Height → Int → Option Commit × Option Round

/-- `state.machine`: the private state of the consensus state machine. -/
structure Machine (σp σc : Type) where
  state : State
  height : Height
  round : Round
  lockedRound : Option Round
  lockedBlock : Option SignedBlock
  polkaBuilder : σp
  commitBuilder : σc
  consensusThreshold : Int
deriving DecidableEq, Repr

variable {σp σc : Type}

/-- `machine.preVote(proposedBlock)` from `state/machine.go`: possibly
unlock on a higher PoLC, then prevote the locked block, else the proposed
block when its height matches, else nil. -/
def Machine.preVote (pops : PolkaBuilderOps σp) (m : Machine σp σc)
    (proposedBlock : Option SignedBlock) : Machine σp σc × Action :=
  let polka := (pops.Polka m.polkaBuilder m.height m.consensusThreshold).1
  let m :=
    match m.lockedRound, polka with
    | some lr, some p =>
        if lr < p.Round then
          { m with lockedRound := none, lockedBlock := none }
        else m
    | _, _ => m
  if m.lockedRound.isSome then
    (m, Action.PreVoteA { Block := m.lockedBlock, Height := m.height, Round := m.round })
  else
    match proposedBlock with
    | some pb =>
        if pb.Height = m.height then
          (m, Action.PreVoteA { Block := some pb, Height := m.height, Round := m.round })
        else
          (m, Action.PreVoteA { Block := none, Height := m.height, Round := m.round })
    | none =>
        (m, Action.PreVoteA { Block := none, Height := m.height, Round := m.round })

/-- `machine.preCommit()` from `state/machine.go`: lock and precommit the
highest polka's block, or unlock and precommit on a nil-polka, or precommit
a synthetic empty polka when no polka exists. -/
def Machine.preCommit (pops : PolkaBuilderOps σp) (m : Machine σp σc) :
    Machine σp σc × Action :=
  let polka := (pops.Polka m.polkaBuilder m.height m.consensusThreshold).1
  match polka with
  | some p =>
      match p.Block with
      | some b =>
          ({ m with lockedRound := some p.Round, lockedBlock := some b },
           Action.PreCommitA { Polka := p })
      | none =>
          ({ m with lockedRound := none, lockedBlock := none },
           Action.PreCommitA { Polka := p })
  | none =>
      (m, Action.PreCommitA { Polka := { Block := none, Height := m.height, Round := m.round } })

/-- The third check of `machine.checkCommonExitConditions()`: skip forward
to a higher round that already has a threshold of precommits (the round was
computed by the commit-builder query made at the top of the function). -/
def Machine.checkPrecommitRoundSkip (pops : PolkaBuilderOps σp) (m : Machine σp σc)
    (preCommittingRound : Option Round) : Machine σp σc × Option Action :=
  match preCommittingRound with
  | some r =>
      if r > m.round then
        let m := { m with state := State.WaitingForCommit, round := r }
        let res := m.preCommit pops
        (res.1, some res.2)
      else (m, none)
  | none => (m, none)

/-- The second check of `machine.checkCommonExitConditions()`: skip forward
to a higher round that already has a threshold of prevotes, then prevote
nil; otherwise fall through to the precommit-round check. -/
def Machine.checkPrevoteRoundSkip (pops : PolkaBuilderOps σp) (m : Machine σp σc)
    (preCommittingRound : Option Round) : Machine σp σc × Option Action :=
  let preVotingRound := (pops.Polka m.polkaBuilder m.height m.consensusThreshold).2
  match preVotingRound with
  | some r =>
      if r > m.round then
        let m := { m with round := r }
        let res := m.preVote pops none
        (res.1, some res.2)
      else m.checkPrecommitRoundSkip pops preCommittingRound
  | none => m.checkPrecommitRoundSkip pops preCommittingRound

/-- `machine.checkCommonExitConditions()` from `state/machine.go`: commit
when the commit builder yields a block-bearing commit, else try the two
round-skip checks. -/
def Machine.checkCommonExitConditions (pops : PolkaBuilderOps σp)
    (cops : CommitBuilderOps σc) (m : Machine σp σc) : Machine σp σc × Option Action :=
  let q := cops.Commit m.commitBuilder m.height m.consensusThreshold
  match q.1 with
  | some c =>
      match c.Polka.Block with
      | some _ =>
          ({ m with state := State.WaitingForPropose, height := c.Polka.Height + 1,
                    round := 0, lockedBlock := none, lockedRound := none },
           some (Action.CommitA c))
      | none => m.checkPrevoteRoundSkip pops q.2
  | none => m.checkPrevoteRoundSkip pops q.2

/-- `machine.waitForPropose(transition)` from `state/machine.go`. -/
def Machine.waitForPropose (pops : PolkaBuilderOps σp) (cops : CommitBuilderOps σc)
    (m : Machine σp σc) (t : Transition) : Machine σp σc × Option Action :=
  match t with
  | Transition.Proposed sb =>
      let m := { m with state := State.WaitingForPolka }
      let res := m.preVote pops (some sb)
      (res.1, some res.2)
  | Transition.PreVoted v =>
      let m := { m with polkaBuilder := (pops.Insert m.polkaBuilder v).1 }
      m.checkCommonExitConditions pops cops
  | Transition.PreCommitted v =>
      let m := { m with commitBuilder := (cops.Insert m.commitBuilder v).1 }
      m.checkCommonExitConditions pops cops
  | Transition.TimedOut =>
      let m := { m with state := State.WaitingForPolka }
      let res := m.preVote pops none
      (res.1, some res.2)

/-- `machine.waitForPolka(transition)` from `state/machine.go`. -/
def Machine.waitForPolka (pops : PolkaBuilderOps σp) (cops : CommitBuilderOps σc)
    (m : Machine σp σc) (t : Transition) : Machine σp σc × Option Action :=
  match t with
  | Transition.Proposed _ =>
      m.checkCommonExitConditions pops cops
  | Transition.PreVoted v =>
      let ins := pops.Insert m.polkaBuilder v
      let m := { m with polkaBuilder := ins.1 }
      if !ins.2 then (m, none)
      else
        let polka := (pops.Polka m.polkaBuilder m.height m.consensusThreshold).1
        match polka with
        | some p =>
            if p.Round = m.round then
              let m := { m with state := State.WaitingForCommit }
              let res := m.preCommit pops
              (res.1, some res.2)
            else m.checkCommonExitConditions pops cops
        | none => m.checkCommonExitConditions pops cops
  | Transition.PreCommitted v =>
      let ins := cops.Insert m.commitBuilder v
      let m := { m with commitBuilder := ins.1 }
      if !ins.2 then (m, none)
      else m.checkCommonExitConditions pops cops
  | Transition.TimedOut =>
      let preVotingRound := (pops.Polka m.polkaBuilder m.height m.consensusThreshold).2
      match preVotingRound with
      | none => (m, none)
      | some _ =>
          let m := { m with state := State.WaitingForCommit }
          let res := m.preCommit pops
          (res.1, some res.2)

/-- `machine.waitForCommit(transition)` from `state/machine.go`. -/
def Machine.waitForCommit (pops : PolkaBuilderOps σp) (cops : CommitBuilderOps σc)
    (m : Machine σp σc) (t : Transition) : Machine σp σc × Option Action :=
  match t with
  | Transition.Proposed _ =>
      m.checkCommonExitConditions pops cops
  | Transition.PreVoted v =>
      let m := { m with polkaBuilder := (pops.Insert m.polkaBuilder v).1 }
      m.checkCommonExitConditions pops cops
  | Transition.PreCommitted v =>
      let ins := cops.Insert m.commitBuilder v
      let m := { m with commitBuilder := ins.1 }
      if !ins.2 then (m, none)
      else
        let commit := (cops.Commit m.commitBuilder m.height m.consensusThreshold).1
        match commit with
        | some c =>
            if c.Polka.Block = none ∧ c.Polka.Round = m.round then
              let m := { m with state := State.WaitingForPropose, round := m.round + 1 }
              (m, some (Action.CommitA
                { Polka := { Block := none, Height := m.height, Round := m.round } }))
            else m.checkCommonExitConditions pops cops
        | none => m.checkCommonExitConditions pops cops
  | Transition.TimedOut =>
      let preCommittingRound := (cops.Commit m.commitBuilder m.height m.consensusThreshold).2
      match preCommittingRound with
      | none => (m, none)
      | some _ =>
          let m := { m with state := State.WaitingForPropose, round := m.round + 1 }
          (m, some (Action.CommitA
            { Polka := { Block := none, Height := m.height, Round := m.round } }))

/-- `machine.Transition(transition)` from `state/machine.go`.  The two
lock-coupling precondition panics become `Except.error`; the type switches
over `State` and `Transition` are total here because both are closed
inductives (the Go `default` panics have no inhabitant). -/
def Machine.transition (pops : PolkaBuilderOps σp) (cops : CommitBuilderOps σc)
    (m : Machine σp σc) (t : Transition) :
    Except String (Machine σp σc × Option Action) :=
  if m.lockedRound.isNone && m.lockedBlock.isSome then
    Except.error "expected locked block to be nil"
  else if m.lockedRound.isSome && m.lockedBlock.isNone then
    Except.error "expected locked round to be nil"
  else
    Except.ok
      (match m.state with
       | State.WaitingForPropose => m.waitForPropose pops cops t
       | State.WaitingForPolka => m.waitForPolka pops cops t
       | State.WaitingForCommit => m.waitForCommit pops cops t)

/-- Invariant I1 (lock coupling): `lockedRound` is set iff `lockedBlock`
is set. -/
def Machine.inv (m : Machine σp σc) : Prop :=
  m.lockedRound.isSome = m.lockedBlock.isSome

instance (m : Machine σp σc) : Decidable m.inv := by
  unfold Machine.inv; infer_instance

/-- Run a list of transitions in order, stopping at the first panic. -/
def Machine.runTransitions (pops : PolkaBuilderOps σp) (cops : CommitBuilderOps σc)
    (m : Machine σp σc) : List Transition → Except String (Machine σp σc)
  | [] => Except.ok m
  | t :: ts =>
      match m.transition pops cops t with
      | Except.error e => Except.error e
      | Except.ok res => res.1.runTransitions pops cops ts

/-- A trivial polka-builder instantiation used to evaluate theorems at
concrete inputs: every query answers `res` and every insertion reports
`isNew`. -/
def constPolkaOps (res : Option Polka × Option Round) (isNew : Bool) :
    PolkaBuilderOps Unit :=
  { Insert := fun s _ => (s, isNew), Polka := fun _ _ _ => res }

/-- A trivial commit-builder instantiation, analogous to `constPolkaOps`. -/
def constCommitOps (res : Option Commit × Option Round) (isNew : Bool) :
    CommitBuilderOps Unit :=
  { Insert := fun s _ => (s, isNew), Commit := fun _ _ _ => res }

/-- A concrete machine over trivial builders, for evaluating theorems. -/
def mkMachine (s : State) (h : Height) (r : Round) (lr : Option Round)
    (lb : Option SignedBlock) : Machine Unit Unit :=
  { state := s, height := h, round := r, lockedRound := lr, lockedBlock := lb,
    polkaBuilder := (), commitBuilder := (), consensusThreshold := 3 }

/-- A concrete signed block at height 5. -/
def sbA : SignedBlock := { Height := 5, Payload := 1 }

/-- A concrete block-bearing polka at height 5, round 2. -/
def polkaA : Polka := { Block := some sbA, Height := 5, Round := 2 }

/-- A concrete block-bearing commit at height 5, round 2. -/
def commitA : Commit := { Polka := polkaA }

/-- A concrete prevote vote for insertion. -/
def spvA : SignedPreVote :=
  { PreVote := { Block := some sbA, Height := 5, Round := 2 }, Signatory := 7 }

/-- A concrete precommit vote for insertion. -/
def spcA : SignedPreCommit := { PreCommit := { Polka := polkaA }, Signatory := 7 }

/-- After `preVote` the machine is unchanged except that the lock may have
been cleared. -/
theorem Machine.preVote_fst (pops : PolkaBuilderOps σp) (m : Machine σp σc)
    (pb : Option SignedBlock) :
    (m.preVote pops pb).1 = m ∨
    (m.preVote pops pb).1 = { m with lockedRound := none, lockedBlock := none } := by
  unfold Machine.preVote
  rcases hl : m.lockedRound with _ | lr <;>
    rcases hp : (pops.Polka m.polkaBuilder m.height m.consensusThreshold).1 with _ | p <;>
    simp [hl, hp]
  · rcases pb with _ | b
    · simp
    · simp; split <;> simp
  · rcases pb with _ | b
    · simp
    · simp; split <;> simp
  · by_cases hlt : lr < p.Round
    · simp [hlt]
      rcases pb with _ | b
      · simp
      · simp; split <;> simp
    · simp [hlt, hl]

/-- After `preCommit` the machine is unchanged except for the lock, which is
either set to the polka's round and block, cleared, or untouched. -/
theorem Machine.preCommit_fst (pops : PolkaBuilderOps σp) (m : Machine σp σc) :
    (m.preCommit pops).1 = m ∨
    (m.preCommit pops).1 = { m with lockedRound := none, lockedBlock := none } ∨
    (∃ r b, (m.preCommit pops).1 =
      { m with lockedRound := some r, lockedBlock := some b }) := by
  unfold Machine.preCommit
  rcases hp : (pops.Polka m.polkaBuilder m.height m.consensusThreshold).1 with _ | p
  · simp
  · rcases hb : p.Block with _ | b <;> simp [hb]

/-- Claim C1: when the commit builder yields a block-bearing commit at the
machine's current height, `checkCommonExitConditions` moves to
`WaitingForPropose`, advances to height+1 round 0, clears the lock, and
emits a `Commit` action carrying that commit — before any round-skip check
(the polka builder is unconstrained here). -/
theorem C1_checkCommonExit_commit (pops : PolkaBuilderOps σp)
    (cops : CommitBuilderOps σc) (m : Machine σp σc) (c : Commit) (b : SignedBlock)
    (hq : (cops.Commit m.commitBuilder m.height m.consensusThreshold).1 = some c)
    (hb : c.Polka.Block = some b)
    (hh : c.Polka.Height = m.height) :
    m.checkCommonExitConditions pops cops =
      ({ m with state := State.WaitingForPropose, height := m.height + 1, round := 0,
                lockedBlock := none, lockedRound := none },
       some (Action.CommitA c)) := by
  unfold Machine.checkCommonExitConditions
  simp [hq, hb, hh]

/-- Witness for C1 at a concrete machine and builders. -/
theorem C1_checkCommonExit_commit_witness :
    (mkMachine State.WaitingForPolka 5 2 (some 1) (some sbA)).checkCommonExitConditions
        (constPolkaOps (none, none) true) (constCommitOps (some commitA, some 2) true) =
      ({ mkMachine State.WaitingForPolka 5 2 (some 1) (some sbA) with
          state := State.WaitingForPropose, height := 6, round := 0,
          lockedBlock := none, lockedRound := none },
       some (Action.CommitA commitA)) :=
  C1_checkCommonExit_commit (constPolkaOps (none, none) true)
    (constCommitOps (some commitA, some 2) true)
    (mkMachine State.WaitingForPolka 5 2 (some 1) (some sbA)) commitA sbA rfl rfl rfl

/-- Claim C3: `preCommit` locks on and precommits a block-bearing highest
polka, unlocks and precommits on a nil-polka, and otherwise leaves the lock
unchanged and precommits a synthetic empty polka at the current height and
round. -/
theorem C3_preCommit_spec (pops : PolkaBuilderOps σp) (m : Machine σp σc) :
    (∀ p b, (pops.Polka m.polkaBuilder m.height m.consensusThreshold).1 = some p →
        p.Block = some b →
        m.preCommit pops =
          ({ m with lockedRound := some p.Round, lockedBlock := some b },
           Action.PreCommitA { Polka := p })) ∧
    (∀ p, (pops.Polka m.polkaBuilder m.height m.consensusThreshold).1 = some p →
        p.Block = none →
        m.preCommit pops =
          ({ m with lockedRound := none, lockedBlock := none },
           Action.PreCommitA { Polka := p })) ∧
    ((pops.Polka m.polkaBuilder m.height m.consensusThreshold).1 = none →
        m.preCommit pops =
          (m, Action.PreCommitA
            { Polka := { Block := none, Height := m.height, Round := m.round } })) := by
  refine ⟨?_, ?_, ?_⟩
  · intro p b hp hb
    unfold Machine.preCommit
    simp [hp, hb]
  · intro p hp hb
    unfold Machine.preCommit
    simp [hp, hb]
  · intro hp
    unfold Machine.preCommit
    simp [hp]

/-- Witness for C3: the lock-and-precommit branch at a concrete polka. -/
theorem C3_preCommit_spec_witness :
    (mkMachine State.WaitingForPolka 5 0 none none).preCommit
        (constPolkaOps (some polkaA, some 2) true) =
      ({ mkMachine State.WaitingForPolka 5 0 none none with
          lockedRound := some 2, lockedBlock := some sbA },
       Action.PreCommitA { Polka := polkaA }) :=
  (C3_preCommit_spec (constPolkaOps (some polkaA, some 2) true)
    (mkMachine State.WaitingForPolka 5 0 none none)).1 polkaA sbA rfl rfl

/-- When no current polka outranks the locked round, `preVote` leaves the
machine untouched. -/
theorem Machine.preVote_fst_noUnlock (pops : PolkaBuilderOps σp) (m : Machine σp σc)
    (pb : Option SignedBlock)
    (h : ∀ lr p, m.lockedRound = some lr →
        (pops.Polka m.polkaBuilder m.height m.consensusThreshold).1 = some p →
        p.Round ≤ lr) :
    (m.preVote pops pb).1 = m := by
  unfold Machine.preVote
  rcases hl : m.lockedRound with _ | lr <;>
    rcases hp : (pops.Polka m.polkaBuilder m.height m.consensusThreshold).1 with _ | p
  · simp [hl]
    rcases pb with _ | b
    · simp
    · simp; split <;> simp
  · simp [hl, hp]
    rcases pb with _ | b
    · simp
    · simp; split <;> simp
  · simp [hl, hp]
  · have hle : p.Round ≤ lr := h lr p hl hp
    simp [hl, hp, not_lt.mpr hle]

/-- `preVote` never changes the state, height, round or builders. -/
theorem Machine.preVote_fields (pops : PolkaBuilderOps σp) (m : Machine σp σc)
    (pb : Option SignedBlock) :
    (m.preVote pops pb).1.state = m.state ∧
    (m.preVote pops pb).1.height = m.height ∧
    (m.preVote pops pb).1.round = m.round ∧
    (m.preVote pops pb).1.polkaBuilder = m.polkaBuilder ∧
    (m.preVote pops pb).1.commitBuilder = m.commitBuilder ∧
    (m.preVote pops pb).1.consensusThreshold = m.consensusThreshold := by
  rcases Machine.preVote_fst pops m pb with h | h <;> simp [h]

/-- `preCommit` never changes the state, height, round or builders. -/
theorem Machine.preCommit_fields (pops : PolkaBuilderOps σp) (m : Machine σp σc) :
    (m.preCommit pops).1.state = m.state ∧
    (m.preCommit pops).1.height = m.height ∧
    (m.preCommit pops).1.round = m.round ∧
    (m.preCommit pops).1.polkaBuilder = m.polkaBuilder ∧
    (m.preCommit pops).1.commitBuilder = m.commitBuilder ∧
    (m.preCommit pops).1.consensusThreshold = m.consensusThreshold := by
  rcases Machine.preCommit_fst pops m with h | h | ⟨r, b, h⟩ <;> simp [h]

/-- Under invariant I1 neither lock-coupling panic fires, and `Transition`
dispatches on the current state. -/
theorem Machine.transition_ok (pops : PolkaBuilderOps σp) (cops : CommitBuilderOps σc)
    (m : Machine σp σc) (t : Transition) (hinv : m.inv) :
    m.transition pops cops t =
      Except.ok
        (match m.state with
         | State.WaitingForPropose => m.waitForPropose pops cops t
         | State.WaitingForPolka => m.waitForPolka pops cops t
         | State.WaitingForCommit => m.waitForCommit pops cops t) := by
  have hinv : m.lockedRound.isSome = m.lockedBlock.isSome := hinv
  unfold Machine.transition
  rcases hr : m.lockedRound with _ | lr <;> rcases hb : m.lockedBlock with _ | b <;>
    rw [hr, hb] at hinv <;> simp_all

/-- Claim C2: `preVote` first clears the lock when a polka at the current
height outranks the locked round; if still locked it prevotes the locked
block, else the proposed block when its height matches, else nil; and every
emitted prevote carries the machine's current height and round. -/
theorem C2_preVote_spec (pops : PolkaBuilderOps σp) (m : Machine σp σc)
    (pb : Option SignedBlock) :
    (∃ b, (m.preVote pops pb).2 =
        Action.PreVoteA { Block := b, Height := m.height, Round := m.round }) ∧
    ((∃ lr p, m.lockedRound = some lr ∧
        (pops.Polka m.polkaBuilder m.height m.consensusThreshold).1 = some p ∧
        lr < p.Round) →
      (m.preVote pops pb).1.lockedRound = none ∧
      (m.preVote pops pb).1.lockedBlock = none) ∧
    ((m.preVote pops pb).1.lockedRound.isSome = true →
      (m.preVote pops pb).2 =
        Action.PreVoteA { Block := m.lockedBlock, Height := m.height, Round := m.round }) ∧
    ((m.preVote pops pb).1.lockedRound = none → ∀ b, pb = some b →
        b.Height = m.height →
        (m.preVote pops pb).2 =
          Action.PreVoteA { Block := some b, Height := m.height, Round := m.round }) ∧
    ((m.preVote pops pb).1.lockedRound = none →
        (∀ b, pb = some b → b.Height ≠ m.height) →
        (m.preVote pops pb).2 =
          Action.PreVoteA { Block := none, Height := m.height, Round := m.round }) := by
  unfold Machine.preVote
  rcases hl : m.lockedRound with _ | lr
  · rcases pb with _ | b
    · simp [hl]
    · by_cases hbh : b.Height = m.height <;> simp [hl, hbh]
  · rcases hp : (pops.Polka m.polkaBuilder m.height m.consensusThreshold).1 with _ | p
    · simp [hl, hp]
    · by_cases hlt : lr < p.Round
      · rcases pb with _ | b
        · simp [hl, hp, hlt]
        · by_cases hbh : b.Height = m.height <;> simp [hl, hp, hlt, hbh]
      · simp [hl, hp, hlt]

/-- Witness for C2 at a concrete input: a machine locked at round 0 sees a
nil-polka at round 2, unlocks, and prevotes the proposed block. -/
theorem C2_preVote_spec_witness :
    ((mkMachine State.WaitingForPropose 5 1 (some 0) (some sbA)).preVote
        (constPolkaOps (some { Block := none, Height := 5, Round := 2 }, some 2) true)
        (some sbA)).1.lockedRound = none ∧
    ((mkMachine State.WaitingForPropose 5 1 (some 0) (some sbA)).preVote
        (constPolkaOps (some { Block := none, Height := 5, Round := 2 }, some 2) true)
        (some sbA)).2 =
      Action.PreVoteA { Block := some sbA, Height := 5, Round := 1 } :=
  ⟨((C2_preVote_spec
      (constPolkaOps (some { Block := none, Height := 5, Round := 2 }, some 2) true)
      (mkMachine State.WaitingForPropose 5 1 (some 0) (some sbA)) (some sbA)).2.1
      ⟨0, { Block := none, Height := 5, Round := 2 }, rfl, rfl, by decide⟩).1,
   (C2_preVote_spec
      (constPolkaOps (some { Block := none, Height := 5, Round := 2 }, some 2) true)
      (mkMachine State.WaitingForPropose 5 1 (some 0) (some sbA)) (some sbA)).2.2.2.1
     ((C2_preVote_spec
        (constPolkaOps (some { Block := none, Height := 5, Round := 2 }, some 2) true)
        (mkMachine State.WaitingForPropose 5 1 (some 0) (some sbA)) (some sbA)).2.1
        ⟨0, { Block := none, Height := 5, Round := 2 }, rfl, rfl, by decide⟩).1
     sbA rfl rfl⟩

/-- Claim C5: in `WaitingForCommit`, both round-advance triggers (a new
precommit completing a nil-block commit at the current round, or a timeout
with some round holding a threshold of precommits) produce a `Commit`
action whose polka has the machine's height, a nil block, and the
incremented round, with the state becoming `WaitingForPropose` and the
height unchanged. -/
theorem C5_waitForCommit_roundAdvance (pops : PolkaBuilderOps σp)
    (cops : CommitBuilderOps σc) (m : Machine σp σc) :
    (∀ v c, (cops.Insert m.commitBuilder v).2 = true →
      (cops.Commit (cops.Insert m.commitBuilder v).1 m.height
          m.consensusThreshold).1 = some c →
      c.Polka.Block = none → c.Polka.Round = m.round →
      m.waitForCommit pops cops (Transition.PreCommitted v) =
        ({ m with commitBuilder := (cops.Insert m.commitBuilder v).1,
                  state := State.WaitingForPropose, round := m.round + 1 },
         some (Action.CommitA
           { Polka := { Block := none, Height := m.height, Round := m.round + 1 } }))) ∧
    (∀ r, (cops.Commit m.commitBuilder m.height m.consensusThreshold).2 = some r →
      m.waitForCommit pops cops Transition.TimedOut =
        ({ m with state := State.WaitingForPropose, round := m.round + 1 },
         some (Action.CommitA
           { Polka := { Block := none, Height := m.height, Round := m.round + 1 } }))) := by
  constructor
  · intro v c hnew hq hb hr
    unfold Machine.waitForCommit
    simp [hnew, hq, hb, hr]
  · intro r hq
    unfold Machine.waitForCommit
    simp [hq]

/-- Witness for C5: the timeout trigger at a concrete machine. -/
theorem C5_waitForCommit_roundAdvance_witness :
    (mkMachine State.WaitingForCommit 5 2 none none).waitForCommit
        (constPolkaOps (none, none) true) (constCommitOps (none, some 2) true)
        Transition.TimedOut =
      ({ mkMachine State.WaitingForCommit 5 2 none none with
          state := State.WaitingForPropose, round := 3 },
       some (Action.CommitA { Polka := { Block := none, Height := 5, Round := 3 } })) :=
  (C5_waitForCommit_roundAdvance (constPolkaOps (none, none) true)
    (constCommitOps (none, some 2) true)
    (mkMachine State.WaitingForCommit 5 2 none none)).2 2 rfl

/-- Claim C7: the prevote round-skip branch of `checkCommonExitConditions`
(no block-bearing commit, and a prevoting round strictly above the current
round) sets the round to that round and emits the result of `preVote(nil)`,
leaving state and height unchanged, and leaving the lock unchanged when no
unlock fires inside `preVote`. -/
theorem C7_checkCommonExit_prevoteSkip (pops : PolkaBuilderOps σp)
    (cops : CommitBuilderOps σc) (m : Machine σp σc) (r : Round)
    (hc : ∀ c, (cops.Commit m.commitBuilder m.height m.consensusThreshold).1 = some c →
        c.Polka.Block = none)
    (hr : (pops.Polka m.polkaBuilder m.height m.consensusThreshold).2 = some r)
    (hgt : r > m.round) :
    (m.checkCommonExitConditions pops cops =
      ((({ m with round := r } : Machine σp σc).preVote pops none).1,
       some (({ m with round := r } : Machine σp σc).preVote pops none).2)) ∧
    (m.checkCommonExitConditions pops cops).1.state = m.state ∧
    (m.checkCommonExitConditions pops cops).1.height = m.height ∧
    (m.checkCommonExitConditions pops cops).1.round = r ∧
    ((∀ lr p, m.lockedRound = some lr →
        (pops.Polka m.polkaBuilder m.height m.consensusThreshold).1 = some p →
        p.Round ≤ lr) →
      (m.checkCommonExitConditions pops cops).1.lockedRound = m.lockedRound ∧
      (m.checkCommonExitConditions pops cops).1.lockedBlock = m.lockedBlock) := by
  have hmain : m.checkCommonExitConditions pops cops =
      ((({ m with round := r } : Machine σp σc).preVote pops none).1,
       some (({ m with round := r } : Machine σp σc).preVote pops none).2) := by
    unfold Machine.checkCommonExitConditions
    rcases hq : (cops.Commit m.commitBuilder m.height m.consensusThreshold).1 with _ | c
    · simp [hq]
      unfold Machine.checkPrevoteRoundSkip
      simp [hr, hgt]
    · have hb := hc c hq
      simp [hq, hb]
      unfold Machine.checkPrevoteRoundSkip
      simp [hr, hgt]
  refine ⟨hmain, ?_, ?_, ?_, ?_⟩
  · rw [hmain]
    exact (Machine.preVote_fields pops { m with round := r } none).1
  · rw [hmain]
    exact (Machine.preVote_fields pops { m with round := r } none).2.1
  · rw [hmain]
    exact (Machine.preVote_fields pops { m with round := r } none).2.2.1
  · intro hnl
    rw [hmain]
    have := Machine.preVote_fst_noUnlock pops { m with round := r } none hnl
    simp [this]

/-- Witness for C7 at a concrete machine: skip from round 1 to round 4 and
prevote nil, keeping the lock (no polka outranks it). -/
theorem C7_checkCommonExit_prevoteSkip_witness :
    ((mkMachine State.WaitingForPolka 5 1 (some 3) (some sbA)).checkCommonExitConditions
        (constPolkaOps (some { Block := some sbA, Height := 5, Round := 2 }, some 4) true)
        (constCommitOps (none, none) true)).1.round = 4 ∧
    ((mkMachine State.WaitingForPolka 5 1 (some 3) (some sbA)).checkCommonExitConditions
        (constPolkaOps (some { Block := some sbA, Height := 5, Round := 2 }, some 4) true)
        (constCommitOps (none, none) true)).1.lockedRound = some 3 :=
  ⟨(C7_checkCommonExit_prevoteSkip
      (constPolkaOps (some { Block := some sbA, Height := 5, Round := 2 }, some 4) true)
      (constCommitOps (none, none) true)
      (mkMachine State.WaitingForPolka 5 1 (some 3) (some sbA)) 4
      (fun c hq => Option.noConfusion hq)
      rfl (by decide)).2.2.2.1,
   ((C7_checkCommonExit_prevoteSkip
      (constPolkaOps (some { Block := some sbA, Height := 5, Round := 2 }, some 4) true)
      (constCommitOps (none, none) true)
      (mkMachine State.WaitingForPolka 5 1 (some 3) (some sbA)) 4
      (fun c hq => Option.noConfusion hq)
      rfl (by decide)).2.2.2.2
      (fun lr p hlr hp => by
        injection hlr with hlr
        injection hp with hp
        rw [← hlr, ← hp]
        decide)).1⟩

/-- Claim C8: in `WaitingForPropose`, `Proposed(sb)` moves the state to
`WaitingForPolka` and returns the result of `preVote(sb)`, and `TimedOut`
moves the state to `WaitingForPolka` and returns the result of
`preVote(nil)`; height, round and the builders are unchanged. -/
theorem C8_waitForPropose_spec (pops : PolkaBuilderOps σp)
    (cops : CommitBuilderOps σc) (m : Machine σp σc)
    (hs : m.state = State.WaitingForPropose) (hinv : m.inv) :
    (∀ sb,
      m.transition pops cops (Transition.Proposed sb) =
        Except.ok
          ((({ m with state := State.WaitingForPolka } : Machine σp σc).preVote pops
              (some sb)).1,
           some (({ m with state := State.WaitingForPolka } : Machine σp σc).preVote pops
              (some sb)).2) ∧
      (({ m with state := State.WaitingForPolka } : Machine σp σc).preVote pops
          (some sb)).1.state = State.WaitingForPolka ∧
      (({ m with state := State.WaitingForPolka } : Machine σp σc).preVote pops
          (some sb)).1.height = m.height ∧
      (({ m with state := State.WaitingForPolka } : Machine σp σc).preVote pops
          (some sb)).1.round = m.round ∧
      (({ m with state := State.WaitingForPolka } : Machine σp σc).preVote pops
          (some sb)).1.polkaBuilder = m.polkaBuilder ∧
      (({ m with state := State.WaitingForPolka } : Machine σp σc).preVote pops
          (some sb)).1.commitBuilder = m.commitBuilder) ∧
    (m.transition pops cops Transition.TimedOut =
        Except.ok
          ((({ m with state := State.WaitingForPolka } : Machine σp σc).preVote pops none).1,
           some (({ m with state := State.WaitingForPolka } : Machine σp σc).preVote pops
              none).2) ∧
      (({ m with state := State.WaitingForPolka } : Machine σp σc).preVote pops
          none).1.state = State.WaitingForPolka ∧
      (({ m with state := State.WaitingForPolka } : Machine σp σc).preVote pops
          none).1.height = m.height ∧
      (({ m with state := State.WaitingForPolka } : Machine σp σc).preVote pops
          none).1.round = m.round ∧
      (({ m with state := State.WaitingForPolka } : Machine σp σc).preVote pops
          none).1.polkaBuilder = m.polkaBuilder ∧
      (({ m with state := State.WaitingForPolka } : Machine σp σc).preVote pops
          none).1.commitBuilder = m.commitBuilder) := by
  constructor
  · intro sb
    have hfields := Machine.preVote_fields pops
      ({ m with state := State.WaitingForPolka } : Machine σp σc) (some sb)
    refine ⟨?_, hfields.1, hfields.2.1, hfields.2.2.1, hfields.2.2.2.1, hfields.2.2.2.2.1⟩
    rw [Machine.transition_ok pops cops m (Transition.Proposed sb) hinv, hs]
    unfold Machine.waitForPropose
    rfl
  · have hfields := Machine.preVote_fields pops
      ({ m with state := State.WaitingForPolka } : Machine σp σc) none
    refine ⟨?_, hfields.1, hfields.2.1, hfields.2.2.1, hfields.2.2.2.1, hfields.2.2.2.2.1⟩
    rw [Machine.transition_ok pops cops m Transition.TimedOut hinv, hs]
    unfold Machine.waitForPropose
    rfl

/-- Witness for C8: the timeout case at a concrete machine. -/
theorem C8_waitForPropose_spec_witness :
    (mkMachine State.WaitingForPropose 5 0 none none).transition
        (constPolkaOps (none, none) true) (constCommitOps (none, none) true)
        Transition.TimedOut =
      Except.ok
        (mkMachine State.WaitingForPolka 5 0 none none,
         some (Action.PreVoteA { Block := none, Height := 5, Round := 0 })) :=
  ((C8_waitForPropose_spec (constPolkaOps (none, none) true)
    (constCommitOps (none, none) true)
    (mkMachine State.WaitingForPropose 5 0 none none) rfl rfl).2).1

/-- `preVote` preserves invariant I1. -/
theorem Machine.preVote_inv (pops : PolkaBuilderOps σp) (m : Machine σp σc)
    (pb : Option SignedBlock) (hinv : m.inv) : (m.preVote pops pb).1.inv := by
  rcases Machine.preVote_fst pops m pb with h | h
  · rw [h]; exact hinv
  · rw [h]; rfl

/-- `preCommit` preserves invariant I1. -/
theorem Machine.preCommit_inv (pops : PolkaBuilderOps σp) (m : Machine σp σc)
    (hinv : m.inv) : (m.preCommit pops).1.inv := by
  rcases Machine.preCommit_fst pops m with h | h | ⟨r, b, h⟩
  · rw [h]; exact hinv
  · rw [h]; rfl
  · rw [h]; rfl

/-- The precommit round-skip check preserves invariant I1. -/
theorem Machine.checkPrecommitRoundSkip_inv (pops : PolkaBuilderOps σp)
    (m : Machine σp σc) (pcr : Option Round) (hinv : m.inv) :
    (m.checkPrecommitRoundSkip pops pcr).1.inv := by
  unfold Machine.checkPrecommitRoundSkip
  rcases pcr with _ | r
  · exact hinv
  · by_cases hr : r > m.round
    · simp only [hr, if_true]
      exact Machine.preCommit_inv pops
        { m with state := State.WaitingForCommit, round := r } hinv
    · simp only [hr, if_false]
      exact hinv

/-- The prevote round-skip check preserves invariant I1. -/
theorem Machine.checkPrevoteRoundSkip_inv (pops : PolkaBuilderOps σp)
    (m : Machine σp σc) (pcr : Option Round) (hinv : m.inv) :
    (m.checkPrevoteRoundSkip pops pcr).1.inv := by
  unfold Machine.checkPrevoteRoundSkip
  rcases hq : (pops.Polka m.polkaBuilder m.height m.consensusThreshold).2 with _ | r
  · simp only [hq]
    exact Machine.checkPrecommitRoundSkip_inv pops m pcr hinv
  · simp only [hq]
    by_cases hr : r > m.round
    · simp only [hr, if_true]
      exact Machine.preVote_inv pops { m with round := r } none hinv
    · simp only [hr, if_false]
      exact Machine.checkPrecommitRoundSkip_inv pops m pcr hinv

/-- `checkCommonExitConditions` preserves invariant I1. -/
theorem Machine.checkCommonExitConditions_inv (pops : PolkaBuilderOps σp)
    (cops : CommitBuilderOps σc) (m : Machine σp σc) (hinv : m.inv) :
    (m.checkCommonExitConditions pops cops).1.inv := by
  unfold Machine.checkCommonExitConditions
  rcases hq : (cops.Commit m.commitBuilder m.height m.consensusThreshold).1 with _ | c
  · simp only [hq]
    exact Machine.checkPrevoteRoundSkip_inv pops m _ hinv
  · rcases hb : c.Polka.Block with _ | b
    · simp only [hq, hb]
      exact Machine.checkPrevoteRoundSkip_inv pops m _ hinv
    · simp only [hq, hb]
      rfl

/-- `waitForPropose` preserves invariant I1. -/
theorem Machine.waitForPropose_inv (pops : PolkaBuilderOps σp)
    (cops : CommitBuilderOps σc) (m : Machine σp σc) (t : Transition)
    (hinv : m.inv) : (m.waitForPropose pops cops t).1.inv := by
  unfold Machine.waitForPropose
  rcases t with sb | v | v | _
  · exact Machine.preVote_inv pops { m with state := State.WaitingForPolka } (some sb) hinv
  · exact Machine.checkCommonExitConditions_inv pops cops
      { m with polkaBuilder := (pops.Insert m.polkaBuilder v).1 } hinv
  · exact Machine.checkCommonExitConditions_inv pops cops
      { m with commitBuilder := (cops.Insert m.commitBuilder v).1 } hinv
  · exact Machine.preVote_inv pops { m with state := State.WaitingForPolka } none hinv

/-- `waitForPolka` preserves invariant I1. -/
theorem Machine.waitForPolka_inv (pops : PolkaBuilderOps σp)
    (cops : CommitBuilderOps σc) (m : Machine σp σc) (t : Transition)
    (hinv : m.inv) : (m.waitForPolka pops cops t).1.inv := by
  unfold Machine.waitForPolka
  rcases t with sb | v | v | _
  · exact Machine.checkCommonExitConditions_inv pops cops m hinv
  · rcases hins : (pops.Insert m.polkaBuilder v).2 with _ | _
    · simp only [hins, Bool.not_false, if_true]
      exact hinv
    · simp only [hins, Bool.not_true, if_false]
      rcases hp : (pops.Polka (pops.Insert m.polkaBuilder v).1 m.height
          m.consensusThreshold).1 with _ | p
      · simp only [hp]
        exact Machine.checkCommonExitConditions_inv pops cops
          { m with polkaBuilder := (pops.Insert m.polkaBuilder v).1 } hinv
      · simp only [hp]
        by_cases hr : p.Round = m.round
        · simp only [hr, if_true]
          exact Machine.preCommit_inv pops
            { m with polkaBuilder := (pops.Insert m.polkaBuilder v).1,
                     state := State.WaitingForCommit } hinv
        · simp only [hr, if_false]
          exact Machine.checkCommonExitConditions_inv pops cops
            { m with polkaBuilder := (pops.Insert m.polkaBuilder v).1 } hinv
  · rcases hins : (cops.Insert m.commitBuilder v).2 with _ | _
    · simp only [hins, Bool.not_false, if_true]
      exact hinv
    · simp only [hins, Bool.not_true, if_false]
      exact Machine.checkCommonExitConditions_inv pops cops
        { m with commitBuilder := (cops.Insert m.commitBuilder v).1 } hinv
  · rcases hq : (pops.Polka m.polkaBuilder m.height m.consensusThreshold).2 with _ | r
    · simp only [hq]
      exact hinv
    · simp only [hq]
      exact Machine.preCommit_inv pops { m with state := State.WaitingForCommit } hinv

/-- `waitForCommit` preserves invariant I1. -/
theorem Machine.waitForCommit_inv (pops : PolkaBuilderOps σp)
    (cops : CommitBuilderOps σc) (m : Machine σp σc) (t : Transition)
    (hinv : m.inv) : (m.waitForCommit pops cops t).1.inv := by
  unfold Machine.waitForCommit
  rcases t with sb | v | v | _
  · exact Machine.checkCommonExitConditions_inv pops cops m hinv
  · exact Machine.checkCommonExitConditions_inv pops cops
      { m with polkaBuilder := (pops.Insert m.polkaBuilder v).1 } hinv
  · rcases hins : (cops.Insert m.commitBuilder v).2 with _ | _
    · simp only [hins, Bool.not_false, if_true]
      exact hinv
    · simp only [hins, Bool.not_true, if_false]
      rcases hc : (cops.Commit (cops.Insert m.commitBuilder v).1 m.height
          m.consensusThreshold).1 with _ | c
      · simp only [hc]
        exact Machine.checkCommonExitConditions_inv pops cops
          { m with commitBuilder := (cops.Insert m.commitBuilder v).1 } hinv
      · simp only [hc]
        by_cases hcond : c.Polka.Block = none ∧ c.Polka.Round = m.round
        · simp only [hcond, if_true]
          exact hinv
        · simp only [hcond, if_false]
          exact Machine.checkCommonExitConditions_inv pops cops
            { m with commitBuilder := (cops.Insert m.commitBuilder v).1 } hinv
  · rcases hq : (cops.Commit m.commitBuilder m.height m.consensusThreshold).2 with _ | r
    · simp only [hq]
      exact hinv
    · simp only [hq]
      exact hinv

/-- Under invariant I1, `Transition` returns normally and the result again
satisfies I1. -/
theorem Machine.transition_ok_inv (pops : PolkaBuilderOps σp)
    (cops : CommitBuilderOps σc) (m : Machine σp σc) (t : Transition)
    (hinv : m.inv) :
    ∃ res, m.transition pops cops t = Except.ok res ∧ res.1.inv := by
  refine ⟨_, Machine.transition_ok pops cops m t hinv, ?_⟩
  rcases hs : m.state
  · exact Machine.waitForPropose_inv pops cops m t hinv
  · exact Machine.waitForPolka_inv pops cops m t hinv
  · exact Machine.waitForCommit_inv pops cops m t hinv

/-- Claim C4: from any machine satisfying I1, every sequence of
`Transition` calls runs without aborting and every machine reached
satisfies I1 (`lockedRound` is set iff `lockedBlock` is set); since the
transition list is arbitrary, this covers the machine after each call of
any run. -/
theorem C4_reachable_inv (pops : PolkaBuilderOps σp) (cops : CommitBuilderOps σc)
    (m : Machine σp σc) (ts : List Transition) (hinv : m.inv) :
    ∃ mf, m.runTransitions pops cops ts = Except.ok mf ∧ mf.inv := by
  induction ts generalizing m with
  | nil => exact ⟨m, rfl, hinv⟩
  | cons t ts ih =>
      obtain ⟨res, hok, hres⟩ := Machine.transition_ok_inv pops cops m t hinv
      unfold Machine.runTransitions
      rw [hok]
      exact ih res.1 hres

/-- Witness for C4: a two-step concrete run (timeout, then a prevote). -/
theorem C4_reachable_inv_witness :
    ∃ mf, (mkMachine State.WaitingForPropose 0 0 none none).runTransitions
        (constPolkaOps (some polkaA, some 2) true) (constCommitOps (none, none) true)
        [Transition.TimedOut, Transition.PreVoted spvA] = Except.ok mf ∧ mf.inv :=
  C4_reachable_inv (constPolkaOps (some polkaA, some 2) true)
    (constCommitOps (none, none) true)
    (mkMachine State.WaitingForPropose 0 0 none none)
    [Transition.TimedOut, Transition.PreVoted spvA] rfl

/-- Claim C9: for a machine in one of the three declared states satisfying
I1, and any of the four declared transition variants, `Transition` never
aborts.  The state and transition domains are total by construction (both
are closed inductive types, so the Go `default` panic branches have no
inhabitant), and I1 rules out the two lock-coupling panics. -/
theorem C9_transition_no_panic (pops : PolkaBuilderOps σp)
    (cops : CommitBuilderOps σc) (m : Machine σp σc) (t : Transition)
    (hinv : m.inv) : ∃ res, m.transition pops cops t = Except.ok res :=
  ⟨_, Machine.transition_ok pops cops m t hinv⟩

/-- Witness for C9 at a concrete locked machine. -/
theorem C9_transition_no_panic_witness :
    ∃ res, (mkMachine State.WaitingForCommit 5 1 (some 0) (some sbA)).transition
        (constPolkaOps (none, none) true) (constCommitOps (none, none) true)
        (Transition.PreCommitted spcA) = Except.ok res :=
  C9_transition_no_panic (constPolkaOps (none, none) true)
    (constCommitOps (none, none) true)
    (mkMachine State.WaitingForCommit 5 1 (some 0) (some sbA))
    (Transition.PreCommitted spcA) rfl

/-- The precommit round-skip check keeps the height and never lowers the
round. -/
theorem Machine.checkPrecommitRoundSkip_hr (pops : PolkaBuilderOps σp)
    (m : Machine σp σc) (pcr : Option Round) :
    (m.checkPrecommitRoundSkip pops pcr).1.height = m.height ∧
    m.round ≤ (m.checkPrecommitRoundSkip pops pcr).1.round := by
  unfold Machine.checkPrecommitRoundSkip
  rcases pcr with _ | r
  · exact ⟨rfl, le_refl _⟩
  · by_cases hr : r > m.round
    · simp only [hr, if_true]
      have hf := Machine.preCommit_fields pops
        { m with state := State.WaitingForCommit, round := r }
      exact ⟨hf.2.1, by rw [hf.2.2.1]; exact le_of_lt hr⟩
    · simp [hr]

/-- The prevote round-skip check keeps the height and never lowers the
round. -/
theorem Machine.checkPrevoteRoundSkip_hr (pops : PolkaBuilderOps σp)
    (m : Machine σp σc) (pcr : Option Round) :
    (m.checkPrevoteRoundSkip pops pcr).1.height = m.height ∧
    m.round ≤ (m.checkPrevoteRoundSkip pops pcr).1.round := by
  unfold Machine.checkPrevoteRoundSkip
  rcases hq : (pops.Polka m.polkaBuilder m.height m.consensusThreshold).2 with _ | r
  · simp only [hq]
    exact Machine.checkPrecommitRoundSkip_hr pops m pcr
  · simp only [hq]
    by_cases hr : r > m.round
    · simp only [hr, if_true]
      have hf := Machine.preVote_fields pops ({ m with round := r } : Machine σp σc) none
      exact ⟨hf.2.1, by rw [hf.2.2.1]; exact le_of_lt hr⟩
    · simp only [hr, if_false]
      exact Machine.checkPrecommitRoundSkip_hr pops m pcr

/-- `checkCommonExitConditions` either keeps the height without lowering
the round, or (when the commit builder yields a block-bearing commit at the
queried height) advances to height+1 at round 0. -/
theorem Machine.checkCommonExitConditions_mono (pops : PolkaBuilderOps σp)
    (cops : CommitBuilderOps σc) (m : Machine σp σc)
    (hcH : ∀ s h t c, (cops.Commit s h t).1 = some c → c.Polka.Height = h) :
    ((m.checkCommonExitConditions pops cops).1.height = m.height ∧
     m.round ≤ (m.checkCommonExitConditions pops cops).1.round) ∨
    ((m.checkCommonExitConditions pops cops).1.height = m.height + 1 ∧
     (m.checkCommonExitConditions pops cops).1.round = 0) := by
  unfold Machine.checkCommonExitConditions
  rcases hq : (cops.Commit m.commitBuilder m.height m.consensusThreshold).1 with _ | c
  · simp only [hq]
    exact Or.inl (Machine.checkPrevoteRoundSkip_hr pops m _)
  · rcases hb : c.Polka.Block with _ | b
    · simp only [hq, hb]
      exact Or.inl (Machine.checkPrevoteRoundSkip_hr pops m _)
    · have hh := hcH m.commitBuilder m.height m.consensusThreshold c hq
      simp only [hq, hb]
      refine Or.inr ⟨?_, ?_⟩ <;> simp [hh]

/-- `waitForPropose` keeps the height without lowering the round, or
advances to height+1 at round 0. -/
theorem Machine.waitForPropose_mono (pops : PolkaBuilderOps σp)
    (cops : CommitBuilderOps σc) (m : Machine σp σc) (t : Transition)
    (hcH : ∀ s h th c, (cops.Commit s h th).1 = some c → c.Polka.Height = h) :
    ((m.waitForPropose pops cops t).1.height = m.height ∧
     m.round ≤ (m.waitForPropose pops cops t).1.round) ∨
    ((m.waitForPropose pops cops t).1.height = m.height + 1 ∧
     (m.waitForPropose pops cops t).1.round = 0) := by
  unfold Machine.waitForPropose
  rcases t with sb | v | v | _
  · have hf := Machine.preVote_fields pops
      ({ m with state := State.WaitingForPolka } : Machine σp σc) (some sb)
    exact Or.inl ⟨hf.2.1, le_of_eq hf.2.2.1.symm⟩
  · exact Machine.checkCommonExitConditions_mono pops cops
      { m with polkaBuilder := (pops.Insert m.polkaBuilder v).1 } hcH
  · exact Machine.checkCommonExitConditions_mono pops cops
      { m with commitBuilder := (cops.Insert m.commitBuilder v).1 } hcH
  · have hf := Machine.preVote_fields pops
      ({ m with state := State.WaitingForPolka } : Machine σp σc) none
    exact Or.inl ⟨hf.2.1, le_of_eq hf.2.2.1.symm⟩

/-- `waitForPolka` keeps the height without lowering the round, or
advances to height+1 at round 0. -/
theorem Machine.waitForPolka_mono (pops : PolkaBuilderOps σp)
    (cops : CommitBuilderOps σc) (m : Machine σp σc) (t : Transition)
    (hcH : ∀ s h th c, (cops.Commit s h th).1 = some c → c.Polka.Height = h) :
    ((m.waitForPolka pops cops t).1.height = m.height ∧
     m.round ≤ (m.waitForPolka pops cops t).1.round) ∨
    ((m.waitForPolka pops cops t).1.height = m.height + 1 ∧
     (m.waitForPolka pops cops t).1.round = 0) := by
  unfold Machine.waitForPolka
  rcases t with sb | v | v | _
  · exact Machine.checkCommonExitConditions_mono pops cops m hcH
  · rcases hins : (pops.Insert m.polkaBuilder v).2 with _ | _
    · simp [hins]
    · simp only [hins, Bool.not_true, if_false]
      rcases hp : (pops.Polka (pops.Insert m.polkaBuilder v).1 m.height
          m.consensusThreshold).1 with _ | p
      · simp only [hp]
        exact Machine.checkCommonExitConditions_mono pops cops
          { m with polkaBuilder := (pops.Insert m.polkaBuilder v).1 } hcH
      · simp only [hp]
        by_cases hr : p.Round = m.round
        · simp only [hr, if_true]
          have hf := Machine.preCommit_fields pops
            ({ m with polkaBuilder := (pops.Insert m.polkaBuilder v).1,
                      state := State.WaitingForCommit } : Machine σp σc)
          exact Or.inl ⟨hf.2.1, le_of_eq hf.2.2.1.symm⟩
        · simp only [hr, if_false]
          exact Machine.checkCommonExitConditions_mono pops cops
            { m with polkaBuilder := (pops.Insert m.polkaBuilder v).1 } hcH
  · rcases hins : (cops.Insert m.commitBuilder v).2 with _ | _
    · simp [hins]
    · simp only [hins, Bool.not_true, if_false]
      exact Machine.checkCommonExitConditions_mono pops cops
        { m with commitBuilder := (cops.Insert m.commitBuilder v).1 } hcH
  · rcases hq : (pops.Polka m.polkaBuilder m.height m.consensusThreshold).2 with _ | r
    · simp [hq]
    · simp only [hq]
      have hf := Machine.preCommit_fields pops
        ({ m with state := State.WaitingForCommit } : Machine σp σc)
      exact Or.inl ⟨hf.2.1, le_of_eq hf.2.2.1.symm⟩

/-- `waitForCommit` keeps the height without lowering the round, or
advances to height+1 at round 0. -/
theorem Machine.waitForCommit_mono (pops : PolkaBuilderOps σp)
    (cops : CommitBuilderOps σc) (m : Machine σp σc) (t : Transition)
    (hcH : ∀ s h th c, (cops.Commit s h th).1 = some c → c.Polka.Height = h) :
    ((m.waitForCommit pops cops t).1.height = m.height ∧
     m.round ≤ (m.waitForCommit pops cops t).1.round) ∨
    ((m.waitForCommit pops cops t).1.height = m.height + 1 ∧
     (m.waitForCommit pops cops t).1.round = 0) := by
  unfold Machine.waitForCommit
  rcases t with sb | v | v | _
  · exact Machine.checkCommonExitConditions_mono pops cops m hcH
  · exact Machine.checkCommonExitConditions_mono pops cops
      { m with polkaBuilder := (pops.Insert m.polkaBuilder v).1 } hcH
  · rcases hins : (cops.Insert m.commitBuilder v).2 with _ | _
    · simp [hins]
    · simp only [hins, Bool.not_true, if_false]
      rcases hc : (cops.Commit (cops.Insert m.commitBuilder v).1 m.height
          m.consensusThreshold).1 with _ | c
      · simp only [hc]
        exact Machine.checkCommonExitConditions_mono pops cops
          { m with commitBuilder := (cops.Insert m.commitBuilder v).1 } hcH
      · simp only [hc]
        by_cases hcond : c.Polka.Block = none ∧ c.Polka.Round = m.round
        · simp [hc, hcond]
        · simp only [hcond, if_false]
          exact Machine.checkCommonExitConditions_mono pops cops
            { m with commitBuilder := (cops.Insert m.commitBuilder v).1 } hcH
  · rcases hq : (cops.Commit m.commitBuilder m.height m.consensusThreshold).2 with _ | r
    · simp [hq]
    · simp [hq]

/-- Claim C10: across any single `Transition` call, when the builders only
report polkas and commits at the queried height, the height never
decreases, the round never decreases while the height is unchanged, and
the round drops (to 0) only in a call that increases the height. -/
theorem C10_transition_monotone (pops : PolkaBuilderOps σp)
    (cops : CommitBuilderOps σc)
    (hpH : ∀ s h th p, (pops.Polka s h th).1 = some p → p.Height = h)
    (hcH : ∀ s h th c, (cops.Commit s h th).1 = some c → c.Polka.Height = h)
    (m : Machine σp σc) (t : Transition) (res : Machine σp σc × Option Action)
    (htr : m.transition pops cops t = Except.ok res) :
    m.height ≤ res.1.height ∧
    (res.1.height = m.height → m.round ≤ res.1.round) ∧
    (res.1.round < m.round → m.height < res.1.height ∧ res.1.round = 0) := by
  unfold Machine.transition at htr
  split at htr
  · exact absurd htr (by simp)
  · split at htr
    · exact absurd htr (by simp)
    · have hres : res = (match m.state with
        | State.WaitingForPropose => m.waitForPropose pops cops t
        | State.WaitingForPolka => m.waitForPolka pops cops t
        | State.WaitingForCommit => m.waitForCommit pops cops t) := by
        injection htr with h
        exact h.symm
      have hmono :
          (res.1.height = m.height ∧ m.round ≤ res.1.round) ∨
          (res.1.height = m.height + 1 ∧ res.1.round = 0) := by
        rw [hres]
        rcases hs : m.state
        · exact Machine.waitForPropose_mono pops cops m t hcH
        · exact Machine.waitForPolka_mono pops cops m t hcH
        · exact Machine.waitForCommit_mono pops cops m t hcH
      rcases hmono with ⟨hh, hr⟩ | ⟨hh, hr⟩
      · exact ⟨le_of_eq hh.symm, fun _ => hr, fun hlt => absurd hlt (not_lt.mpr hr)⟩
      · refine ⟨by rw [hh]; exact le_of_lt (lt_add_one _), ?_, ?_⟩
        · exact fun he => absurd (he.symm.trans hh) (lt_add_one m.height).ne
        · exact fun hlt => ⟨by rw [hh]; exact lt_add_one _, hr⟩

/-- A commit builder whose answer tracks the queried height, so that it
reports commits only at that height. -/
def heightCommitOps : CommitBuilderOps Unit :=
  { Insert := fun s _ => (s, true),
    Commit := fun _ h _ =>
      (some { Polka := { Block := some { Height := h, Payload := 1 },
                         Height := h, Round := 2 } }, some 2) }

/-- Witness for C10 at a concrete commit step. -/
theorem C10_transition_monotone_witness :
    (mkMachine State.WaitingForPolka 5 2 none none).height ≤
      ((mkMachine State.WaitingForPolka 5 2 none none).waitForPolka
        (constPolkaOps (none, none) true) heightCommitOps
        (Transition.PreCommitted spcA)).1.height :=
  (C10_transition_monotone (constPolkaOps (none, none) true) heightCommitOps
    (fun s h th p hp => Option.noConfusion hp)
    (fun s h th c hc => by injection hc with hc; rw [← hc])
    (mkMachine State.WaitingForPolka 5 2 none none)
    (Transition.PreCommitted spcA) _ rfl).1

/-- Counterexample to claim C6: in `WaitingForPolka`, when the inserted
prevote is a duplicate the code returns nil immediately and does not run
the common-exit checks — here the commit builder holds a block-bearing
commit, so running the common-exit checks would emit a `Commit` action and
advance the height, but `waitForPolka` emits nothing. -/
theorem C6_counterexample :
    ¬((mkMachine State.WaitingForPolka 5 0 none none).waitForPolka
        (constPolkaOps (none, none) false) (constCommitOps (some commitA, some 2) true)
        (Transition.PreVoted spvA) =
      (mkMachine State.WaitingForPolka 5 0 none none).checkCommonExitConditions
        (constPolkaOps (none, none) false)
        (constCommitOps (some commitA, some 2) true)) := by
  decide

/-- Claim C6 (amended): in `WaitingForPolka`, after a `PreVoted` transition
the machine runs the common-exit checks only when the vote was new and no
polka exists at the machine's current round; when the vote was a duplicate
it returns no action and changes nothing but the polka-builder state. -/
theorem C6_waitForPolka_prevoted (pops : PolkaBuilderOps σp)
    (cops : CommitBuilderOps σc) (m : Machine σp σc) (v : SignedPreVote) :
    ((pops.Insert m.polkaBuilder v).2 = false →
      m.waitForPolka pops cops (Transition.PreVoted v) =
        ({ m with polkaBuilder := (pops.Insert m.polkaBuilder v).1 }, none)) ∧
    ((pops.Insert m.polkaBuilder v).2 = true →
      (∀ p, (pops.Polka (pops.Insert m.polkaBuilder v).1 m.height
          m.consensusThreshold).1 = some p → p.Round ≠ m.round) →
      m.waitForPolka pops cops (Transition.PreVoted v) =
        ({ m with polkaBuilder := (pops.Insert m.polkaBuilder v).1 }
          : Machine σp σc).checkCommonExitConditions pops cops) := by
  constructor
  · intro hins
    unfold Machine.waitForPolka
    simp [hins]
  · intro hins hnp
    unfold Machine.waitForPolka
    rcases hp : (pops.Polka (pops.Insert m.polkaBuilder v).1 m.height
        m.consensusThreshold).1 with _ | p
    · simp [hins, hp]
    · simp [hins, hp, hnp p hp]

/-- Witness for C6 (amended): the duplicate branch at a concrete input. -/
theorem C6_waitForPolka_prevoted_witness :
    (mkMachine State.WaitingForPolka 5 0 none none).waitForPolka
        (constPolkaOps (none, none) false) (constCommitOps (some commitA, some 2) true)
        (Transition.PreVoted spvA) =
      ({ mkMachine State.WaitingForPolka 5 0 none none with polkaBuilder := () }, none) :=
  (C6_waitForPolka_prevoted (constPolkaOps (none, none) false)
    (constCommitOps (some commitA, some 2) true)
    (mkMachine State.WaitingForPolka 5 0 none none) spvA).1 rfl

end Hyperdrive
